import Mathlib

/-!
Verification development for the virtual-JTAG-DTM / SWD-DMI bridge.

The definitions below are a shallow embedding of `src/jtag_vdtm.c` and
`src/swd_dmi.c`.  Machine integers are modelled as `Nat` with explicit
`% 2^w` at the points where the C code truncates (`uint8_t` stores,
`uint64_t` shift-register updates, `uint32_t` address/data values).
The DMI callbacks of the DTM are external collaborators; they are
modelled by a read-response oracle `env : Nat → Nat` plus an event log
that records every callback invocation, and two booleans recording
whether a callback is installed (a NULL function pointer is `false`).
-/

/-! ## JTAG TAP FSM (`src/jtag_vdtm.c`, `jtag_tap_state_t` and `step_tap_fsm`) -/

inductive TapState
  | RESET
  | RUN_IDLE
  | SELECT_DR
  | CAPTURE_DR
  | SHIFT_DR
  | EXIT1_DR
  | PAUSE_DR
  | EXIT2_DR
  | UPDATE_DR
  | SELECT_IR
  | CAPTURE_IR
  | SHIFT_IR
  | EXIT1_IR
  | PAUSE_IR
  | EXIT2_IR
  | UPDATE_IR
  deriving DecidableEq, Repr

open TapState

def step_tap_fsm (state : TapState) (tms : Bool) : TapState :=
  match state with
  | RESET      => if tms then RESET     else RUN_IDLE
  | RUN_IDLE   => if tms then SELECT_DR else RUN_IDLE
  | SELECT_DR  => if tms then SELECT_IR else CAPTURE_DR
  | CAPTURE_DR => if tms then EXIT1_DR  else SHIFT_DR
  | SHIFT_DR   => if tms then EXIT1_DR  else SHIFT_DR
  | EXIT1_DR   => if tms then UPDATE_DR else PAUSE_DR
  | PAUSE_DR   => if tms then EXIT2_DR  else PAUSE_DR
  | EXIT2_DR   => if tms then UPDATE_DR else SHIFT_DR
  | UPDATE_DR  => if tms then SELECT_DR else RUN_IDLE
  | SELECT_IR  => if tms then RESET     else CAPTURE_IR
  | CAPTURE_IR => if tms then EXIT1_IR  else SHIFT_IR
  | SHIFT_IR   => if tms then EXIT1_IR  else SHIFT_IR
  | EXIT1_IR   => if tms then UPDATE_IR else PAUSE_IR
  | PAUSE_IR   => if tms then EXIT2_IR  else PAUSE_IR
  | EXIT2_IR   => if tms then UPDATE_IR else SHIFT_IR
  | UPDATE_IR  => if tms then SELECT_DR else RUN_IDLE

/-! ## Virtual DTM state (`struct jtag_vdtm`) -/

/-- A DMI callback invocation observed at the DTM boundary. -/
inductive DmiEvent
  | write (addr data : Nat)
  | read (addr : Nat)
  deriving DecidableEq, Repr

/-- `struct jtag_vdtm`.  `write_cb` / `read_cb` record whether the
corresponding callback function pointer is non-NULL; `log` records the
callback invocations performed so far. -/
structure jtag_vdtm where
  ir : Nat           -- uint8_t
  shifter : Nat      -- uint64_t
  idcode : Nat       -- uint32_t
  tap_state : TapState
  dmi_rdata : Nat    -- uint32_t
  write_cb : Bool
  read_cb : Bool
  tck : Bool
  tms : Bool
  tdi : Bool
  tdo : Bool
  log : List DmiEvent
  deriving DecidableEq, Repr

/-- `jtag_vdtm_create`: calloc-style zero state, then `idcode` is set. -/
def jtag_vdtm_create (idcode : Nat) : jtag_vdtm :=
  { ir := 0
    shifter := 0
    idcode := idcode % 2^32
    tap_state := RESET
    dmi_rdata := 0
    write_cb := false
    read_cb := false
    tck := false
    tms := false
    tdi := false
    tdo := false
    log := [] }

def jtag_vdtm_set_write_callback (dtm : jtag_vdtm) (installed : Bool) : jtag_vdtm :=
  { dtm with write_cb := installed }

def jtag_vdtm_set_read_callback (dtm : jtag_vdtm) (installed : Bool) : jtag_vdtm :=
  { dtm with read_cb := installed }

def jtag_vdtm_set_tms (dtm : jtag_vdtm) (tms : Bool) : jtag_vdtm :=
  { dtm with tms := tms }

def jtag_vdtm_set_tdi (dtm : jtag_vdtm) (tdi : Bool) : jtag_vdtm :=
  { dtm with tdi := tdi }

def jtag_vdtm_get_tdo (dtm : jtag_vdtm) : Bool := dtm.tdo

/-! ## Instruction decode (`W_IR`, `IR_*`, `ABITS`, `W_DMI`, `dr_len`) -/

def W_IR : Nat := 5
def IR_BYPASS : Nat := 0x00
def IR_IDCODE : Nat := 0x01
def IR_DTMCS : Nat := 0x10
def IR_DMI : Nat := 0x11

def ABITS : Nat := 8
def W_DMI : Nat := ABITS + 32 + 2

def dr_len (ir : Nat) : Nat :=
  if ir = IR_DTMCS then 32
  else if ir = IR_DMI then W_DMI
  else if ir = IR_IDCODE then 32
  else 1

/-! ## DTM core (`handle_dmi_write`, `handle_dmi_read`, `handle_dtmcs_*`) -/

def DMI_OP_WRITE : Nat := 2
def DMI_OP_READ : Nat := 1
def DMI_OP_NONE : Nat := 0

/-- `handle_dmi_write`.  `env addr` is the 32-bit value the read callback
stores through its out-parameter. -/
def handle_dmi_write (env : Nat → Nat) (dtm : jtag_vdtm) (dr_shifter : Nat) : jtag_vdtm :=
  let op := dr_shifter &&& 0x3
  let wdata := (dr_shifter >>> 2) &&& 0xffffffff
  let addr := (dr_shifter >>> 34) &&& (2^ABITS - 1)
  if op = DMI_OP_WRITE ∧ dtm.write_cb = true then
    { dtm with log := dtm.log ++ [DmiEvent.write addr wdata] }
  else if op = DMI_OP_READ ∧ dtm.read_cb = true then
    { dtm with dmi_rdata := env addr % 2^32, log := dtm.log ++ [DmiEvent.read addr] }
  else
    dtm

def handle_dmi_read (dtm : jtag_vdtm) : Nat :=
  dtm.dmi_rdata <<< 2

def handle_dtmcs_write (dtm : jtag_vdtm) (_dr_shifter : Nat) : jtag_vdtm :=
  dtm

def DTMCS_VERSION : Nat := 1
def DTMCS_ABITS : Nat := ABITS
def DTMCS_IDLE_HINT : Nat := 0

def handle_dtmcs_read (_dtm : jtag_vdtm) : Nat :=
  (DTMCS_VERSION <<< 0) ||| (DTMCS_ABITS <<< 4) ||| (DTMCS_IDLE_HINT <<< 12)

/-! ## Edge handling (`tck_posedge`, `get_next_tdo`, `jtag_vdtm_set_tck`) -/

def tck_posedge (env : Nat → Nat) (dtm : jtag_vdtm) : jtag_vdtm :=
  let dtm' :=
    match dtm.tap_state with
    | RESET => { dtm with ir := IR_IDCODE }
    | CAPTURE_IR => { dtm with shifter := dtm.ir }
    | SHIFT_IR =>
        { dtm with shifter :=
            ((dtm.shifter >>> 1) ||| (dtm.tdi.toNat <<< (W_IR - 1))) % 2^64 }
    | UPDATE_IR => { dtm with ir := dtm.shifter % 2^8 }
    | CAPTURE_DR =>
        if dtm.ir = IR_BYPASS then { dtm with shifter := 0 }
        else if dtm.ir = IR_IDCODE then { dtm with shifter := dtm.idcode }
        else if dtm.ir = IR_DTMCS then { dtm with shifter := handle_dtmcs_read dtm }
        else if dtm.ir = IR_DMI then { dtm with shifter := handle_dmi_read dtm }
        else dtm
    | SHIFT_DR =>
        { dtm with shifter :=
            ((dtm.shifter >>> 1) ||| (dtm.tdi.toNat <<< (dr_len dtm.ir - 1))) % 2^64 }
    | UPDATE_DR =>
        if dtm.ir = IR_DTMCS then handle_dtmcs_write dtm dtm.shifter
        else if dtm.ir = IR_DMI then handle_dmi_write env dtm dtm.shifter
        else dtm
    | _ => dtm
  { dtm' with tap_state := step_tap_fsm dtm.tap_state dtm.tms }

def get_next_tdo (dtm : jtag_vdtm) : Bool :=
  if dtm.tap_state = SHIFT_DR ∨ dtm.tap_state = SHIFT_IR then
    decide (dtm.shifter &&& 1 = 1)
  else
    false

def jtag_vdtm_set_tck (env : Nat → Nat) (dtm : jtag_vdtm) (tck : Bool) : jtag_vdtm :=
  let dtm' :=
    if tck = true ∧ dtm.tck = false then tck_posedge env dtm
    else if tck = false ∧ dtm.tck = true then { dtm with tdo := get_next_tdo dtm }
    else dtm
  { dtm' with tck := tck }

/-! ## Pin-level drivers used by the theorems

`pinStep` performs one full JTAG clock cycle exactly as a bit-bang host
would: set TMS and TDI, raise TCK (rising edge), lower TCK (falling
edge, TDO update). -/

def pinStep (env : Nat → Nat) (d : jtag_vdtm) (tms tdi : Bool) : jtag_vdtm :=
  jtag_vdtm_set_tck env
    (jtag_vdtm_set_tck env (jtag_vdtm_set_tdi (jtag_vdtm_set_tms d tms) tdi) true) false

def runPins (env : Nat → Nat) (d : jtag_vdtm) : List (Bool × Bool) → jtag_vdtm
  | [] => d
  | (tms, tdi) :: rest => runPins env (pinStep env d tms tdi) rest

/-- TDO value observed after each full clock cycle. -/
def tdoTrace (env : Nat → Nat) (d : jtag_vdtm) : List (Bool × Bool) → List Bool
  | [] => []
  | (tms, tdi) :: rest =>
    let d' := pinStep env d tms tdi
    d'.tdo :: tdoTrace env d' rest

example : (jtag_vdtm_create 5).tap_state = RESET := by decide

example :
    (runPins (fun _ => 0) (jtag_vdtm_create 0xdeadbeef)
      [(false, false), (true, false), (true, false)]).tap_state = SELECT_IR := by
  decide

/-! ## SWD transaction layer (`src/swd_dmi.c`)

`put_bits` drives bit `i` of a little-endian byte buffer `tx` as
`(tx[i/8] >> (i%8)) & 1` (it reloads the byte shifter every 8 bits and
shifts it right in between, which is the same thing).  The stream of
bits driven on the wire is therefore: -/

def put_bits_stream (tx : List Nat) (n_bits : Nat) : List Bool :=
  (List.range n_bits).map (fun i => decide ((tx.getD (i / 8) 0 >>> (i % 8)) &&& 1 = 1))

/-- `swd_header`.  `ap_ndp : Bool` stands for the `ap_dp_t` enum
(`DP = false`, `AP = true`); all arithmetic is on `uint8_t` values that
never exceed 8 bits, so no truncation is needed. -/
def swd_header (ap_ndp : Bool) (read_nwrite : Bool) (addr : Nat) : Nat :=
  let addr := addr &&& 0x3
  let parity := (addr >>> 1) ^^^ (addr &&& 1) ^^^ read_nwrite.toNat ^^^ ap_ndp.toNat
  (1 <<< 0) |||
  (ap_ndp.toNat <<< 1) |||
  (read_nwrite.toNat <<< 2) |||
  (addr <<< 3) |||
  (parity <<< 5) |||
  (0 <<< 6) |||
  (1 <<< 7)

/-! ## Link bring-up stream (`link_down_up`, `link_down_up_bits`) -/

def link_down_up : List Nat :=
  [0xff, 0xff, 0xff, 0xff, 0xff, 0xff, 0xff,
   0xbc, 0xe3,
   0xff,
   0x92, 0xf3, 0x09, 0x62,
   0x95, 0x2d, 0x85, 0x86,
   0xe9, 0xaf, 0xdd, 0xe3,
   0xa2, 0x0e, 0xbc, 0x19,
   0xa0, 0x01,
   0xff, 0xff, 0xff, 0xff, 0xff, 0xff, 0x03]

def link_down_up_bits : Nat := link_down_up.length * 8 - 4

/-- Bits `0 .. n-1` of `val`, least significant first (LSB-first wire order). -/
def lsbBits (n val : Nat) : List Bool :=
  (List.range n).map (fun i => decide ((val >>> i) &&& 1 = 1))

/-- Modelled from the spec: the dormant-to-SWD wake segment, "a zero bit
followed by the 128-bit dormant-wake LFSR pattern" fixed by IHI0031F
(one zero bit, then 127 bits of LFSR output), written here as the
128-bit constant whose LSB-first bit stream is that segment. -/
def dormant_wake_bits : List Bool :=
  lsbBits 128 0x19BC0EA2E3DDAFE986852D956209F392

/-- Modelled from the spec: the canonical link-reset / SWJ-DP selection
stream of §4.3 step 1 — a 56-cycle line reset, the 16-bit SWD-to-Dormant
sequence 0xE3BC LSB-first, the 8-bit dormant resync 0xFF, the dormant
wake segment, 4 zero bits, the 8-bit SWD activation code 0x1A, 4 zero
bits, a 50-cycle line reset and 2 trailing zeros. -/
def spec_link_pattern : List Bool :=
  List.replicate 56 true ++
  lsbBits 16 0xE3BC ++
  List.replicate 8 true ++
  dormant_wake_bits ++
  List.replicate 4 false ++
  lsbBits 8 0x1A ++
  List.replicate 4 false ++
  List.replicate 50 true ++
  List.replicate 2 false

/-! ## SWD-DMI bridge state (`struct swd_dmi`) -/

structure swd_dmi where
  addr_cache : Nat   -- uint32_t
  targetsel : Nat    -- uint32_t
  apsel : Nat        -- uint
  addr_cache_valid : Bool
  deriving DecidableEq, Repr

def swd_dmi_create (targetsel apsel : Nat) : swd_dmi :=
  { addr_cache := 0
    targetsel := targetsel % 2^32
    apsel := apsel
    addr_cache_valid := false }

/-- A Mem-AP / DP transaction emitted by the steady-state DMI path
(statuses of these transactions are discarded by the code, so only the
transaction itself is recorded). -/
inductive ApTxn
  | tarWrite (addr : Nat)
  | drwWrite (data : Nat)
  | drwRead
  | rdbufRead
  deriving DecidableEq, Repr

/-- `set_addr`: TAR cache lookup; on miss, emit a TAR write and update
the cache. -/
def set_addr (dmi : swd_dmi) (addr : Nat) : swd_dmi × List ApTxn :=
  if dmi.addr_cache_valid = true ∧ dmi.addr_cache = addr then
    (dmi, [])
  else
    ({ dmi with addr_cache_valid := true, addr_cache := addr }, [ApTxn.tarWrite addr])

/-- `swd_dmi_write`: scale the word address to a byte address
(`addr <<= 2` on `uint32_t`), resolve TAR, write DRW. -/
def swd_dmi_write (dmi : swd_dmi) (addr data : Nat) : swd_dmi × List ApTxn :=
  let addr := (addr <<< 2) % 2^32
  let r := set_addr dmi addr
  (r.1, r.2 ++ [ApTxn.drwWrite (data % 2^32)])

/-- `swd_dmi_read`: scale the address, resolve TAR, posted DRW read then
RDBUF read (the data goes to the caller's out-parameter, not into the
bridge state). -/
def swd_dmi_read (dmi : swd_dmi) (addr : Nat) : swd_dmi × List ApTxn :=
  let addr := (addr <<< 2) % 2^32
  let r := set_addr dmi addr
  (r.1, r.2 ++ [ApTxn.drwRead, ApTxn.rdbufRead])

/-! ## SWD connect sequence (`swd_dmi_connect`)

The target's responses are modelled by an oracle `env : Nat → SwdResp`:
the `i`-th ACK-phase transaction issued by `swd_dmi_connect` consumes
`env i` (the link stream and TARGETSEL have no response phase and
consume nothing).  `swd_ack` is the 3-bit ACK sampled off the wire and
`swd_rdata` the 32-bit read data. -/

structure SwdResp where
  status : Nat
  data : Nat

def swd_ack (r : SwdResp) : Nat := r.status &&& 7

def swd_rdata (r : SwdResp) : Nat := r.data % 2^32

def OK : Nat := 1

def PWRUP_ACK_TIMEOUT : Nat := 10000

def DP_CTRL_STAT_CSYSPWRUPACK : Nat := 2^31
def DP_CTRL_STAT_CSYSPWRUPREQ : Nat := 2^30
def DP_CTRL_STAT_CDBGPWRUPACK : Nat := 2^29
def DP_CTRL_STAT_CDBGPWRUPREQ : Nat := 2^28

def pwr_ack_bits : Nat := DP_CTRL_STAT_CSYSPWRUPACK ||| DP_CTRL_STAT_CDBGPWRUPACK

def APIDR_EXPECTED_MASK : Nat := 0x1e00f
def APIDR_EXPECTED_DATA : Nat := 0x10002

/-- The CTRL/STAT power-up acknowledge poll (the `for` loop of
`swd_dmi_connect`).  `idx` is the index of the next oracle response,
`fuel` the remaining iterations. -/
inductive PollOut
  | fail (consumed : Nat)
  | timeout
  | success (consumed : Nat)
  deriving DecidableEq, Repr

def pwrup_poll (env : Nat → SwdResp) : Nat → Nat → PollOut
  | _, 0 => PollOut.timeout
  | idx, fuel+1 =>
    if swd_ack (env idx) ≠ OK then PollOut.fail (idx + 1)
    else if swd_rdata (env idx) &&& pwr_ack_bits = pwr_ack_bits then PollOut.success (idx + 1)
    else pwrup_poll env (idx + 1) fuel

/-- `swd_dmi_connect`.  Returns the `int` result, the final bridge state
and the number of ACK-phase responses consumed.  The ignored-status
transactions (the `(void)` SELECT write before the AP IDR read, and the
posted AP IDR read itself) still consume a response, matching the wire
traffic of the C code. -/
def swd_dmi_connect (env : Nat → SwdResp) (dmi : swd_dmi) : Int × swd_dmi × Nat :=
  let dmi := { dmi with addr_cache_valid := false }
  -- put_bits(link_down_up, link_down_up_bits); optional swd_targetsel
  if swd_ack (env 0) ≠ OK then (-1, dmi, 1)        -- DPIDR read
  else if swd_ack (env 1) ≠ OK then (-1, dmi, 2)   -- ABORT := 0x1e
  else if swd_ack (env 2) ≠ OK then (-1, dmi, 3)   -- SELECT := CTRL/STAT bank
  else if swd_ack (env 3) ≠ OK then (-1, dmi, 4)   -- CTRL/STAT := REQ | ORUNDETECT
  else
    match pwrup_poll env 4 PWRUP_ACK_TIMEOUT with
    | PollOut.fail n => (-1, dmi, n)
    | PollOut.timeout => (-1, dmi, 4 + PWRUP_ACK_TIMEOUT)
    | PollOut.success n =>
      -- (void) SELECT := IDR bank   (consumes env n, status discarded)
      -- (void) AP IDR read          (consumes env (n+1), status discarded)
      if swd_ack (env (n+2)) ≠ OK then (-1, dmi, n+3)   -- DP RDBUF read
      else if swd_rdata (env (n+2)) &&& APIDR_EXPECTED_MASK ≠ APIDR_EXPECTED_DATA then
        (-1, dmi, n+3)
      else if swd_ack (env (n+3)) ≠ OK then (-1, dmi, n+4)  -- SELECT := CSW bank
      else (0, dmi, n+4)

example :
    (swd_dmi_connect (fun _ => ⟨1, 0xA0010002⟩) (swd_dmi_create 0 0)).1 = 0 := by
  decide


/-! ## Claim theorems: SWD header and link stream -/

/-- C8: for every starting TAP state, five consecutive TCK rising edges
with TMS=1 (five applications of `step_tap_fsm` with `tms = true`) leave
the TAP in RESET. -/
theorem tap_reset_after_five_tms_high : ∀ s : TapState,
    step_tap_fsm (step_tap_fsm (step_tap_fsm (step_tap_fsm
      (step_tap_fsm s true) true) true) true) true = RESET := by
  intro s
  cases s <;> rfl

/-- C6 counterexample: the header byte built for (APnDP=AP, RnW=read,
addr=0x2) is not 0xBF as claimed. -/
theorem swd_header_ap_read_2_ne_BF : swd_header true true 2 ≠ 0xBF := by decide

/-- C6 amended: the header byte for (AP, read, addr=0x2) is 0xB7, which
is exactly the LSB-first assembly of the listed bits Start=1, APnDP=1,
RnW=1, A2=0, A3=1, parity=1, Stop=0, Park=1. -/
theorem swd_header_ap_read_2_eq_B7 :
    swd_header true true 2 = 0xB7 ∧
    0xB7 = (1 <<< 0) ||| (1 <<< 1) ||| (1 <<< 2) ||| (0 <<< 3) |||
           (1 <<< 4) ||| (1 <<< 5) ||| (0 <<< 6) ||| (1 <<< 7) := by
  decide

/-- C7: for every (APnDP, RnW, addr) with addr a 2-bit selector, the
header byte has Start=1 in bit 0, APnDP in bit 1, RnW in bit 2, A[2] in
bit 3, A[3] in bit 4, parity in bit 5 equal to the XOR of the four
variable bits, Stop=0 in bit 6 and Park=1 in bit 7. -/
theorem swd_header_layout :
    ∀ (ap_ndp read_nwrite : Bool) (addr : Nat), addr < 4 →
      (swd_header ap_ndp read_nwrite addr &&& 1 = 1 ∧
       (swd_header ap_ndp read_nwrite addr >>> 1) &&& 1 = ap_ndp.toNat ∧
       (swd_header ap_ndp read_nwrite addr >>> 2) &&& 1 = read_nwrite.toNat ∧
       (swd_header ap_ndp read_nwrite addr >>> 3) &&& 1 = addr &&& 1 ∧
       (swd_header ap_ndp read_nwrite addr >>> 4) &&& 1 = (addr >>> 1) &&& 1 ∧
       (swd_header ap_ndp read_nwrite addr >>> 5) &&& 1 =
         ap_ndp.toNat ^^^ read_nwrite.toNat ^^^ (addr &&& 1) ^^^ ((addr >>> 1) &&& 1) ∧
       (swd_header ap_ndp read_nwrite addr >>> 6) &&& 1 = 0 ∧
       (swd_header ap_ndp read_nwrite addr >>> 7) &&& 1 = 1) := by
  intro a r
  cases a <;> cases r <;> decide

theorem swd_header_layout_witness :
    2 < 4 ∧
    (swd_header true true 2 &&& 1 = 1 ∧
     (swd_header true true 2 >>> 1) &&& 1 = Bool.toNat true ∧
     (swd_header true true 2 >>> 2) &&& 1 = Bool.toNat true ∧
     (swd_header true true 2 >>> 3) &&& 1 = 2 &&& 1 ∧
     (swd_header true true 2 >>> 4) &&& 1 = (2 >>> 1) &&& 1 ∧
     (swd_header true true 2 >>> 5) &&& 1 =
       Bool.toNat true ^^^ Bool.toNat true ^^^ (2 &&& 1) ^^^ ((2 >>> 1) &&& 1) ∧
     (swd_header true true 2 >>> 6) &&& 1 = 0 ∧
     (swd_header true true 2 >>> 7) &&& 1 = 1) :=
  ⟨by decide, swd_header_layout true true 2 (by decide)⟩

set_option maxRecDepth 4000 in
/-- C4 counterexample: the link-reset / dormant-to-SWD stream pushed by
`swd_dmi_connect` is `link_down_up_bits = 276` bits long, not 216. -/
theorem link_stream_not_216_bits :
    link_down_up_bits = 276 ∧
    ¬ (put_bits_stream link_down_up link_down_up_bits).length = 216 := by
  decide

set_option maxRecDepth 4000 in
/-- C4 amended: the stream pushed before any TARGETSEL/DPIDR traffic is
exactly the 276-bit pattern of §4.3 step 1 — 56 high clocks, 0xE3BC
LSB-first, 0xFF, the 128-bit dormant-wake segment (a zero bit plus 127
LFSR bits), 4 zeros, the 0x1A activation code, 4 zeros, a 50-cycle line
reset and 2 trailing zeros. -/
theorem link_stream_matches_spec_pattern :
    put_bits_stream link_down_up link_down_up_bits = spec_link_pattern ∧
    link_down_up_bits = 276 := by
  decide

/-! ## Claim theorems: DMI commit and capture semantics -/

/-- C1: at UPDATE-DR with IR=DMI, op=WRITE with an installed write
callback invokes it exactly once with addr = shifter[41:34] and
data = shifter[33:2]; op=READ with an installed read callback invokes it
exactly once with that addr and latches its 32-bit result; and any
CAPTURE-DR with IR=DMI loads the shifter with exactly (latch << 2). -/
theorem dmi_update_and_capture :
    ∀ (env : Nat → Nat) (d : jtag_vdtm),
      d.tap_state = UPDATE_DR → d.ir = IR_DMI →
      ((d.shifter &&& 3 = 2 ∧ d.write_cb = true →
          (tck_posedge env d).log =
            d.log ++ [DmiEvent.write ((d.shifter >>> 34) &&& 0xff)
                        ((d.shifter >>> 2) &&& 0xffffffff)] ∧
          (tck_posedge env d).dmi_rdata = d.dmi_rdata) ∧
       (d.shifter &&& 3 = 1 ∧ d.read_cb = true →
          (tck_posedge env d).log =
            d.log ++ [DmiEvent.read ((d.shifter >>> 34) &&& 0xff)] ∧
          (tck_posedge env d).dmi_rdata = env ((d.shifter >>> 34) &&& 0xff) % 2^32)) ∧
      (∀ d2 : jtag_vdtm, d2.tap_state = CAPTURE_DR → d2.ir = IR_DMI →
          (tck_posedge env d2).shifter = d2.dmi_rdata <<< 2) := by
  intro env d htap hir
  refine ⟨⟨?_, ?_⟩, ?_⟩
  · rintro ⟨hop, hcb⟩
    simp [tck_posedge, htap, hir, handle_dmi_write, hop, hcb,
      IR_DMI, IR_DTMCS, DMI_OP_WRITE, DMI_OP_READ, ABITS]
  · rintro ⟨hop, hcb⟩
    simp [tck_posedge, htap, hir, handle_dmi_write, hop, hcb,
      IR_DMI, IR_DTMCS, DMI_OP_WRITE, DMI_OP_READ, ABITS]
  · intro d2 htap2 hir2
    simp [tck_posedge, htap2, hir2, handle_dmi_read,
      IR_DMI, IR_BYPASS, IR_IDCODE, IR_DTMCS]

def envW : Nat → Nat := fun _ => 0x12345678

def dW : jtag_vdtm :=
  { jtag_vdtm_create 0xabc with
      tap_state := UPDATE_DR
      ir := IR_DMI
      shifter := (0x10 <<< 34) ||| (0x00000001 <<< 2) ||| 2
      write_cb := true
      read_cb := true }

theorem dmi_update_and_capture_witness :
    (dW.shifter &&& 3 = 2 ∧ dW.write_cb = true) ∧
    ((tck_posedge envW dW).log =
        dW.log ++ [DmiEvent.write ((dW.shifter >>> 34) &&& 0xff)
                     ((dW.shifter >>> 2) &&& 0xffffffff)] ∧
      (tck_posedge envW dW).dmi_rdata = dW.dmi_rdata) :=
  ⟨⟨by decide, rfl⟩, (dmi_update_and_capture envW dW rfl rfl).1.1 ⟨by decide, rfl⟩⟩

/-- C10: at UPDATE-DR with IR=DMI, if the committed op is NOP(0) or
reserved(3), or the matching callback is not installed, then no callback
is invoked and every component of the state other than the TAP state
(shifter, IR, idcode, DMI read latch, pins, event log) is unchanged;
only the TAP FSM advances. -/
theorem dmi_update_nop_frame :
    ∀ (env : Nat → Nat) (d : jtag_vdtm),
      d.tap_state = UPDATE_DR → d.ir = IR_DMI →
      (d.shifter &&& 3 = 0 ∨ d.shifter &&& 3 = 3 ∨
       (d.shifter &&& 3 = 2 ∧ d.write_cb = false) ∨
       (d.shifter &&& 3 = 1 ∧ d.read_cb = false)) →
      tck_posedge env d = { d with tap_state := step_tap_fsm UPDATE_DR d.tms } := by
  intro env d htap hir hcase
  rcases hcase with h | h | ⟨h, hcb⟩ | ⟨h, hcb⟩
  · simp [tck_posedge, htap, hir, handle_dmi_write, h,
      IR_DMI, IR_DTMCS, DMI_OP_WRITE, DMI_OP_READ]
  · simp [tck_posedge, htap, hir, handle_dmi_write, h,
      IR_DMI, IR_DTMCS, DMI_OP_WRITE, DMI_OP_READ]
  · simp [tck_posedge, htap, hir, handle_dmi_write, h, hcb,
      IR_DMI, IR_DTMCS, DMI_OP_WRITE, DMI_OP_READ]
  · simp [tck_posedge, htap, hir, handle_dmi_write, h, hcb,
      IR_DMI, IR_DTMCS, DMI_OP_WRITE, DMI_OP_READ]

def dN : jtag_vdtm := { dW with shifter := 0x4 }

theorem dmi_update_nop_frame_witness :
    tck_posedge envW dN = { dN with tap_state := step_tap_fsm UPDATE_DR dN.tms } :=
  dmi_update_nop_frame envW dN rfl rfl (Or.inl (by decide))

/-! ## TAR cache counting (claim C2) -/

/-- A steady-state DMI call made against the bridge. -/
inductive DmiCall
  | rd (addr : Nat)
  | wr (addr : Nat) (data : Nat)
  deriving DecidableEq, Repr

/-- The byte address the call resolves TAR to (`addr <<= 2` on uint32). -/
def byteAddr : DmiCall → Nat
  | DmiCall.rd a => (a <<< 2) % 2^32
  | DmiCall.wr a _ => (a <<< 2) % 2^32

def doCall (dmi : swd_dmi) : DmiCall → swd_dmi × List ApTxn
  | DmiCall.rd a => swd_dmi_read dmi a
  | DmiCall.wr a dat => swd_dmi_write dmi a dat

def runCalls (dmi : swd_dmi) : List DmiCall → swd_dmi × List ApTxn
  | [] => (dmi, [])
  | c :: rest =>
    let r := doCall dmi c
    let r2 := runCalls r.1 rest
    (r2.1, r.2 ++ r2.2)

def isTarWrite : ApTxn → Bool
  | ApTxn.tarWrite _ => true
  | _ => false

def isDrwWrite : ApTxn → Bool
  | ApTxn.drwWrite _ => true
  | _ => false

def tarCount (ts : List ApTxn) : Nat := (ts.filter isTarWrite).length

def drwWriteCount (ts : List ApTxn) : Nat := (ts.filter isDrwWrite).length

/-- Number of entries of the list that differ from their predecessor,
`prev` being the predecessor of the head. -/
def changes (prev : Nat) : List Nat → Nat
  | [] => 0
  | a :: rest => (if a = prev then 0 else 1) + changes a rest

/-- Number of consecutive-address misses, the first entry always
counting as one. -/
def missCount : List Nat → Nat
  | [] => 0
  | a :: rest => 1 + changes a rest

theorem doCall_cache (dmi : swd_dmi) (c : DmiCall) :
    (doCall dmi c).1.addr_cache_valid = true ∧
    (doCall dmi c).1.addr_cache = byteAddr c ∧
    tarCount (doCall dmi c).2 =
      (if dmi.addr_cache_valid = true ∧ dmi.addr_cache = byteAddr c then 0 else 1) := by
  cases c <;>
    · simp only [doCall, swd_dmi_read, swd_dmi_write, set_addr, byteAddr]
      split <;>
        simp_all [tarCount, isTarWrite, List.filter]

theorem runCalls_tar_valid (cs : List DmiCall) :
    ∀ dmi : swd_dmi, dmi.addr_cache_valid = true →
      tarCount (runCalls dmi cs).2 = changes dmi.addr_cache (cs.map byteAddr) := by
  induction cs with
  | nil => intro dmi _; simp [runCalls, tarCount, changes]
  | cons c rest ih =>
    intro dmi hvalid
    have hc := doCall_cache dmi c
    simp only [runCalls, List.map_cons, changes, tarCount, List.filter_append,
      List.length_append]
    have h1 : tarCount (doCall dmi c).2 =
        (if dmi.addr_cache_valid = true ∧ dmi.addr_cache = byteAddr c then 0 else 1) :=
      hc.2.2
    have h2 := ih (doCall dmi c).1 hc.1
    simp only [tarCount] at h1 h2
    rw [h1, h2, hc.2.1]
    have hif : (if dmi.addr_cache_valid = true ∧ dmi.addr_cache = byteAddr c then (0:Nat) else 1) =
        (if byteAddr c = dmi.addr_cache then (0:Nat) else 1) := by
      by_cases hhit : dmi.addr_cache = byteAddr c
      · simp [hvalid, hhit]
      · simp [hvalid, hhit, eq_comm]
    rw [hif]

/-- C2: starting from the invalid cache state left by connect, the
number of TAR writes over any call sequence equals the number of calls
whose byte address differs from the previous call's (the first call
always missing); after a TAR write the cache holds exactly the address
written; steady-state calls never invalidate the cache while connect
always does; and the sequence write 0x4, 0x4, 0x5, 0x4 emits exactly
3 TAR writes and 4 DRW writes. -/
theorem tar_cache_correct :
    ∀ (dmi : swd_dmi) (cs : List DmiCall), dmi.addr_cache_valid = false →
      (tarCount (runCalls dmi cs).2 = missCount (cs.map byteAddr) ∧
       (∀ (d : swd_dmi) (a : Nat), (set_addr d a).2 ≠ [] →
          (set_addr d a).1.addr_cache = a ∧ (set_addr d a).1.addr_cache_valid = true) ∧
       (∀ (d : swd_dmi) (c : DmiCall), (doCall d c).1.addr_cache_valid = true) ∧
       (∀ (env : Nat → SwdResp) (d : swd_dmi),
          (swd_dmi_connect env d).2.1.addr_cache_valid = false) ∧
       tarCount (runCalls (swd_dmi_create 0 0)
         [DmiCall.wr 4 0, DmiCall.wr 4 0, DmiCall.wr 5 0, DmiCall.wr 4 0]).2 = 3 ∧
       drwWriteCount (runCalls (swd_dmi_create 0 0)
         [DmiCall.wr 4 0, DmiCall.wr 4 0, DmiCall.wr 5 0, DmiCall.wr 4 0]).2 = 4) := by
  intro dmi cs hinvalid
  refine ⟨?_, ?_, ?_, ?_, by decide, by decide⟩
  · cases cs with
    | nil => simp [runCalls, tarCount, missCount]
    | cons c rest =>
      have hc := doCall_cache dmi c
      simp only [runCalls, List.map_cons, missCount, tarCount, List.filter_append,
        List.length_append]
      have h1 := hc.2.2
      have h2 := runCalls_tar_valid rest (doCall dmi c).1 hc.1
      simp only [tarCount] at h1 h2
      rw [h1, h2, hc.2.1, if_neg (by simp [hinvalid])]
  · intro d a hne
    by_cases hcond : d.addr_cache_valid = true ∧ d.addr_cache = a
    · exfalso
      apply hne
      simp [set_addr, hcond]
    · simp [set_addr, hcond]
  · intro d c
    exact (doCall_cache d c).1
  · intro env d
    simp only [swd_dmi_connect]
    split
    · rfl
    · split
      · rfl
      · split
        · rfl
        · split
          · rfl
          · split
            · rfl
            · rfl
            · split
              · rfl
              · split
                · rfl
                · split
                  · rfl
                  · rfl

theorem tar_cache_correct_witness :
    (swd_dmi_create 0 0).addr_cache_valid = false ∧
    tarCount (runCalls (swd_dmi_create 0 0)
      [DmiCall.wr 4 0, DmiCall.wr 4 0, DmiCall.wr 5 0, DmiCall.wr 4 0]).2 = 3 ∧
    drwWriteCount (runCalls (swd_dmi_create 0 0)
      [DmiCall.wr 4 0, DmiCall.wr 4 0, DmiCall.wr 5 0, DmiCall.wr 4 0]).2 = 4 :=
  ⟨rfl, (tar_cache_correct (swd_dmi_create 0 0) [] rfl).2.2.2.2.1,
        (tar_cache_correct (swd_dmi_create 0 0) [] rfl).2.2.2.2.2⟩

/-! ## Connect result characterization (claim C3) -/

/-- `k = k'` when both are the first index satisfying `P` below their
respective bounds. -/
theorem first_index_unique {P : Nat → Prop} {k k' : Nat}
    (hpre : ∀ j, j < k → ¬ P j) (hk : P k)
    (hpre' : ∀ j, j < k' → ¬ P j) (hk' : P k') : k = k' := by
  rcases Nat.lt_trichotomy k k' with h | h | h
  · exact absurd hk (hpre' k h)
  · exact h
  · exact absurd hk' (hpre k' h)

theorem pwrup_poll_success_iff (env : Nat → SwdResp) :
    ∀ (fuel idx n : Nat),
      pwrup_poll env idx fuel = PollOut.success n ↔
      ∃ k, k < fuel ∧
        (∀ j, j < k → swd_ack (env (idx+j)) = OK ∧
           ¬ swd_rdata (env (idx+j)) &&& pwr_ack_bits = pwr_ack_bits) ∧
        swd_ack (env (idx+k)) = OK ∧
        swd_rdata (env (idx+k)) &&& pwr_ack_bits = pwr_ack_bits ∧
        n = idx + k + 1 := by
  intro fuel
  induction fuel with
  | zero =>
    intro idx n
    simp [pwrup_poll]
  | succ f ih =>
    intro idx n
    rw [pwrup_poll]
    by_cases h1 : swd_ack (env idx) = OK
    · by_cases h2 : swd_rdata (env idx) &&& pwr_ack_bits = pwr_ack_bits
      · rw [if_neg (by simp [h1]), if_pos h2]
        constructor
        · intro hs
          have hn : n = idx + 1 := by
            cases hs
            rfl
          exact ⟨0, Nat.succ_pos f, by omega, by simpa using h1, by simpa using h2,
            by omega⟩
        · rintro ⟨k, hk, hpre, hok, hack, hn⟩
          cases k with
          | zero =>
            congr 1
            omega
          | succ k =>
            exact absurd (by simpa using h2) (hpre 0 (Nat.succ_pos k)).2
      · rw [if_neg (by simp [h1]), if_neg h2, ih (idx+1) n]
        constructor
        · rintro ⟨k, hk, hpre, hok, hack, hn⟩
          refine ⟨k+1, by omega, ?_, ?_, ?_, by omega⟩
          · intro j hj
            cases j with
            | zero => exact ⟨by simpa using h1, by simpa using h2⟩
            | succ j =>
              have := hpre j (by omega)
              constructor
              · have e : idx + 1 + j = idx + (j + 1) := by omega
                rw [e] at this
                exact this.1
              · have e : idx + 1 + j = idx + (j + 1) := by omega
                rw [e] at this
                exact this.2
          · have e : idx + (k + 1) = idx + 1 + k := by omega
            rw [e]
            exact hok
          · have e : idx + (k + 1) = idx + 1 + k := by omega
            rw [e]
            exact hack
        · rintro ⟨k, hk, hpre, hok, hack, hn⟩
          cases k with
          | zero => exact absurd (by simpa using hack) h2
          | succ k =>
            refine ⟨k, by omega, ?_, ?_, ?_, by omega⟩
            · intro j hj
              have := hpre (j+1) (by omega)
              have e : idx + (j + 1) = idx + 1 + j := by omega
              rw [e] at this
              exact this
            · have e : idx + 1 + k = idx + (k + 1) := by omega
              rw [e]
              exact hok
            · have e : idx + 1 + k = idx + (k + 1) := by omega
              rw [e]
              exact hack
    · rw [if_pos (by simp [h1])]
      constructor
      · intro hs
        cases hs
      · rintro ⟨k, hk, hpre, hok, hack, hn⟩
        cases k with
        | zero => exact absurd (by simpa using hok) h1
        | succ k => exact absurd (hpre 0 (Nat.succ_pos k)).1 (by simpa using h1)

/-- The environment condition under which the connect sequence succeeds:
all status-checked transactions (DPIDR read, ABORT/SELECT/CTRL-STAT
writes, the power-up poll reads, the RDBUF read, the final SELECT write)
are ACKed OK, the poll sees both power-up acknowledge bits within the
timeout, and the AP IDR check passes. -/
def connectOkEnv (env : Nat → SwdResp) : Prop :=
  swd_ack (env 0) = OK ∧ swd_ack (env 1) = OK ∧
  swd_ack (env 2) = OK ∧ swd_ack (env 3) = OK ∧
  ∃ k, k < PWRUP_ACK_TIMEOUT ∧
    (∀ j, j < k → swd_ack (env (4+j)) = OK ∧
       ¬ swd_rdata (env (4+j)) &&& pwr_ack_bits = pwr_ack_bits) ∧
    swd_ack (env (4+k)) = OK ∧
    swd_rdata (env (4+k)) &&& pwr_ack_bits = pwr_ack_bits ∧
    swd_ack (env (7+k)) = OK ∧
    swd_rdata (env (7+k)) &&& APIDR_EXPECTED_MASK = APIDR_EXPECTED_DATA ∧
    swd_ack (env (8+k)) = OK

theorem connect_eval_success (env : Nat → SwdResp) (dmi : swd_dmi)
    (h0 : swd_ack (env 0) = OK) (h1 : swd_ack (env 1) = OK)
    (h2 : swd_ack (env 2) = OK) (h3 : swd_ack (env 3) = OK)
    {n : Nat} (hp : pwrup_poll env 4 PWRUP_ACK_TIMEOUT = PollOut.success n) :
    swd_dmi_connect env dmi =
      (if swd_ack (env (n+2)) ≠ OK then
         ((-1 : Int), { dmi with addr_cache_valid := false }, n+3)
       else if swd_rdata (env (n+2)) &&& APIDR_EXPECTED_MASK ≠ APIDR_EXPECTED_DATA then
         ((-1 : Int), { dmi with addr_cache_valid := false }, n+3)
       else if swd_ack (env (n+3)) ≠ OK then
         ((-1 : Int), { dmi with addr_cache_valid := false }, n+4)
       else ((0 : Int), { dmi with addr_cache_valid := false }, n+4)) := by
  simp only [swd_dmi_connect]
  rw [if_neg (by simp [h0]), if_neg (by simp [h1]), if_neg (by simp [h2]),
    if_neg (by simp [h3]), hp]

theorem connect_eval_fail (env : Nat → SwdResp) (dmi : swd_dmi)
    (h0 : swd_ack (env 0) = OK) (h1 : swd_ack (env 1) = OK)
    (h2 : swd_ack (env 2) = OK) (h3 : swd_ack (env 3) = OK)
    {c : Nat} (hp : pwrup_poll env 4 PWRUP_ACK_TIMEOUT = PollOut.fail c) :
    swd_dmi_connect env dmi = ((-1 : Int), { dmi with addr_cache_valid := false }, c) := by
  simp only [swd_dmi_connect]
  rw [if_neg (by simp [h0]), if_neg (by simp [h1]), if_neg (by simp [h2]),
    if_neg (by simp [h3]), hp]

theorem connect_eval_timeout (env : Nat → SwdResp) (dmi : swd_dmi)
    (h0 : swd_ack (env 0) = OK) (h1 : swd_ack (env 1) = OK)
    (h2 : swd_ack (env 2) = OK) (h3 : swd_ack (env 3) = OK)
    (hp : pwrup_poll env 4 PWRUP_ACK_TIMEOUT = PollOut.timeout) :
    swd_dmi_connect env dmi =
      ((-1 : Int), { dmi with addr_cache_valid := false }, 4 + PWRUP_ACK_TIMEOUT) := by
  simp only [swd_dmi_connect]
  rw [if_neg (by simp [h0]), if_neg (by simp [h1]), if_neg (by simp [h2]),
    if_neg (by simp [h3]), hp]

/-- C3 amended: `swd_dmi_connect` returns 0 exactly when every
status-checked transaction is ACKed OK, the power-up poll succeeds
within the timeout, and the AP IDR check passes; every other outcome
returns the failure value -1.  The statuses of the SELECT write that
precedes the AP IDR read and of the posted AP IDR read itself are
discarded by the code and do not affect the result. -/
theorem swd_dmi_connect_result :
    ∀ (env : Nat → SwdResp) (dmi : swd_dmi),
      ((swd_dmi_connect env dmi).1 = 0 ↔ connectOkEnv env) ∧
      ((swd_dmi_connect env dmi).1 = 0 ∨ (swd_dmi_connect env dmi).1 = -1) := by
  intro env dmi
  by_cases h0 : swd_ack (env 0) = OK
  rotate_left
  · have hres : (swd_dmi_connect env dmi).1 = -1 := by
      simp [swd_dmi_connect, h0]
    rw [hres]
    exact ⟨⟨fun h => absurd h (by decide), fun h => absurd h.1 h0⟩, Or.inr rfl⟩
  by_cases h1 : swd_ack (env 1) = OK
  rotate_left
  · have hres : (swd_dmi_connect env dmi).1 = -1 := by
      simp [swd_dmi_connect, h0, h1]
    rw [hres]
    exact ⟨⟨fun h => absurd h (by decide), fun h => absurd h.2.1 h1⟩, Or.inr rfl⟩
  by_cases h2 : swd_ack (env 2) = OK
  rotate_left
  · have hres : (swd_dmi_connect env dmi).1 = -1 := by
      simp [swd_dmi_connect, h0, h1, h2]
    rw [hres]
    exact ⟨⟨fun h => absurd h (by decide), fun h => absurd h.2.2.1 h2⟩, Or.inr rfl⟩
  by_cases h3 : swd_ack (env 3) = OK
  rotate_left
  · have hres : (swd_dmi_connect env dmi).1 = -1 := by
      simp [swd_dmi_connect, h0, h1, h2, h3]
    rw [hres]
    exact ⟨⟨fun h => absurd h (by decide), fun h => absurd h.2.2.2.1 h3⟩, Or.inr rfl⟩
  cases hp : pwrup_poll env 4 PWRUP_ACK_TIMEOUT with
  | fail c =>
    have hres : (swd_dmi_connect env dmi).1 = -1 := by
      rw [connect_eval_fail env dmi h0 h1 h2 h3 hp]
    rw [hres]
    refine ⟨⟨fun h => absurd h (by decide), ?_⟩, Or.inr rfl⟩
    rintro ⟨-, -, -, -, k, hk, hpre, hok, hack, -⟩
    have hs : pwrup_poll env 4 PWRUP_ACK_TIMEOUT = PollOut.success (4 + k + 1) :=
      (pwrup_poll_success_iff env PWRUP_ACK_TIMEOUT 4 (4 + k + 1)).2
        ⟨k, hk, hpre, hok, hack, rfl⟩
    rw [hp] at hs
    cases hs
  | timeout =>
    have hres : (swd_dmi_connect env dmi).1 = -1 := by
      rw [connect_eval_timeout env dmi h0 h1 h2 h3 hp]
    rw [hres]
    refine ⟨⟨fun h => absurd h (by decide), ?_⟩, Or.inr rfl⟩
    rintro ⟨-, -, -, -, k, hk, hpre, hok, hack, -⟩
    have hs : pwrup_poll env 4 PWRUP_ACK_TIMEOUT = PollOut.success (4 + k + 1) :=
      (pwrup_poll_success_iff env PWRUP_ACK_TIMEOUT 4 (4 + k + 1)).2
        ⟨k, hk, hpre, hok, hack, rfl⟩
    rw [hp] at hs
    cases hs
  | success n =>
    obtain ⟨k, hk, hpre, hok, hack, hn⟩ :=
      (pwrup_poll_success_iff env PWRUP_ACK_TIMEOUT 4 n).1 hp
    have hres := connect_eval_success env dmi h0 h1 h2 h3 hp
    have e2 : n + 2 = 7 + k := by omega
    have e3 : n + 3 = 8 + k := by omega
    rw [e2, e3] at hres
    by_cases h7 : swd_ack (env (7 + k)) = OK
    rotate_left
    · have hres1 : (swd_dmi_connect env dmi).1 = -1 := by
        rw [hres, if_pos (by simpa using h7)]
      rw [hres1]
      refine ⟨⟨fun h => absurd h (by decide), ?_⟩, Or.inr rfl⟩
      rintro ⟨-, -, -, -, k', hk', hpre', hok', hack', h7', -, -⟩
      have hkk : k = k' :=
        first_index_unique
          (P := fun j => swd_rdata (env (4+j)) &&& pwr_ack_bits = pwr_ack_bits)
          (fun j hj => (hpre j hj).2) hack (fun j hj => (hpre' j hj).2) hack'
      rw [← hkk] at h7'
      exact absurd h7' h7
    by_cases hidr : swd_rdata (env (7 + k)) &&& APIDR_EXPECTED_MASK = APIDR_EXPECTED_DATA
    rotate_left
    · have hres1 : (swd_dmi_connect env dmi).1 = -1 := by
        rw [hres, if_neg (by simpa using h7), if_pos (by simpa using hidr)]
      rw [hres1]
      refine ⟨⟨fun h => absurd h (by decide), ?_⟩, Or.inr rfl⟩
      rintro ⟨-, -, -, -, k', hk', hpre', hok', hack', -, hidr', -⟩
      have hkk : k = k' :=
        first_index_unique
          (P := fun j => swd_rdata (env (4+j)) &&& pwr_ack_bits = pwr_ack_bits)
          (fun j hj => (hpre j hj).2) hack (fun j hj => (hpre' j hj).2) hack'
      rw [← hkk] at hidr'
      exact absurd hidr' hidr
    by_cases h8 : swd_ack (env (8 + k)) = OK
    rotate_left
    · have hres1 : (swd_dmi_connect env dmi).1 = -1 := by
        rw [hres, if_neg (by simpa using h7), if_neg (by simpa using hidr),
          if_pos (by simpa using h8)]
      rw [hres1]
      refine ⟨⟨fun h => absurd h (by decide), ?_⟩, Or.inr rfl⟩
      rintro ⟨-, -, -, -, k', hk', hpre', hok', hack', -, -, h8'⟩
      have hkk : k = k' :=
        first_index_unique
          (P := fun j => swd_rdata (env (4+j)) &&& pwr_ack_bits = pwr_ack_bits)
          (fun j hj => (hpre j hj).2) hack (fun j hj => (hpre' j hj).2) hack'
      rw [← hkk] at h8'
      exact absurd h8' h8
    · have hres1 : (swd_dmi_connect env dmi).1 = 0 := by
        rw [hres, if_neg (by simpa using h7), if_neg (by simpa using hidr),
          if_neg (by simpa using h8)]
      rw [hres1]
      refine ⟨⟨fun _ => ?_, fun _ => rfl⟩, Or.inl rfl⟩
      exact ⟨h0, h1, h2, h3, k, hk, hpre, hok, hack, h7, hidr, h8⟩

/-- An environment in which the SELECT write preceding the AP IDR read
(the 6th ACK-phase transaction, oracle index 5) answers WAIT(2) while
everything else is OK and the IDR matches. -/
def envBadSelect : Nat → SwdResp := fun i =>
  if i = 4 then ⟨1, 0xA0000000⟩
  else if i = 5 then ⟨2, 0⟩
  else if i = 7 then ⟨1, 0x10002⟩
  else ⟨1, 0⟩

/-- C3 counterexample: `swd_dmi_connect` returns 0 (success) although
one of the SWD transactions it issued — the SELECT write at oracle
index 5, which is consumed (9 responses are consumed in total) — was
acknowledged WAIT (2), not OK. -/
theorem connect_zero_despite_bad_ack :
    (swd_dmi_connect envBadSelect (swd_dmi_create 0 0)).1 = 0 ∧
    (swd_dmi_connect envBadSelect (swd_dmi_create 0 0)).2.2 = 9 ∧
    swd_ack (envBadSelect 5) = 2 ∧ ¬ swd_ack (envBadSelect 5) = OK := by
  decide

/-! ## Unknown-IR behaviour (claim C5) -/

/-- TDO stream of a DR scan driven from CAPTURE-DR: one cycle entering
SHIFT-DR, then one cycle per shifted bit (TMS low throughout). -/
def drShiftTdo (env : Nat → Nat) (d : jtag_vdtm) : List Bool → List Bool
  | [] => []
  | b :: rest =>
    let d' := pinStep env d false b
    d'.tdo :: drShiftTdo env d' rest

def drScanTdo (env : Nat → Nat) (d : jtag_vdtm) (bits : List Bool) : List Bool :=
  let d1 := pinStep env d false false
  d1.tdo :: drShiftTdo env d1 bits

theorem dr_len_unknown {ir : Nat} (h1 : ir ≠ IR_IDCODE) (h2 : ir ≠ IR_DTMCS)
    (h3 : ir ≠ IR_DMI) : dr_len ir = 1 := by
  simp [dr_len, h1, h2, h3]

theorem pinStep_shift_dr (env : Nat → Nat) (d : jtag_vdtm) (b : Bool)
    (htap : d.tap_state = SHIFT_DR) (htck : d.tck = false) :
    pinStep env d false b =
      { d with tms := false, tdi := b,
               shifter := ((d.shifter >>> 1) ||| (b.toNat <<< (dr_len d.ir - 1))) % 2^64,
               tap_state := SHIFT_DR,
               tdo := decide ((((d.shifter >>> 1) |||
                 (b.toNat <<< (dr_len d.ir - 1))) % 2^64) &&& 1 = 1),
               tck := false } := by
  simp [pinStep, jtag_vdtm_set_tms, jtag_vdtm_set_tdi, jtag_vdtm_set_tck, htck,
    tck_posedge, htap, step_tap_fsm, get_next_tdo]

theorem pinStep_capture_dr_unknown (env : Nat → Nat) (d : jtag_vdtm) (tdi : Bool)
    (htap : d.tap_state = CAPTURE_DR) (htck : d.tck = false)
    (h0 : d.ir ≠ IR_BYPASS) (h1 : d.ir ≠ IR_IDCODE) (h2 : d.ir ≠ IR_DTMCS)
    (h3 : d.ir ≠ IR_DMI) :
    pinStep env d false tdi =
      { d with tms := false, tdi := tdi, tap_state := SHIFT_DR,
               tdo := decide (d.shifter &&& 1 = 1), tck := false } := by
  simp [pinStep, jtag_vdtm_set_tms, jtag_vdtm_set_tdi, jtag_vdtm_set_tck, htck,
    tck_posedge, htap, h0, h1, h2, h3, step_tap_fsm, get_next_tdo]

theorem pinStep_capture_dr_bypass (env : Nat → Nat) (d : jtag_vdtm) (tdi : Bool)
    (htap : d.tap_state = CAPTURE_DR) (htck : d.tck = false)
    (hir : d.ir = IR_BYPASS) :
    pinStep env d false tdi =
      { d with tms := false, tdi := tdi, shifter := 0, tap_state := SHIFT_DR,
               tdo := false, tck := false } := by
  simp [pinStep, jtag_vdtm_set_tms, jtag_vdtm_set_tdi, jtag_vdtm_set_tck, htck,
    tck_posedge, htap, hir, IR_BYPASS, step_tap_fsm, get_next_tdo]

theorem drShiftTdo_bisim (env : Nat → Nat) :
    ∀ (bits : List Bool) (d1 d2 : jtag_vdtm),
      d1.tap_state = SHIFT_DR → d2.tap_state = SHIFT_DR →
      d1.tck = false → d2.tck = false →
      d1.shifter = d2.shifter →
      dr_len d1.ir = 1 → dr_len d2.ir = 1 →
      drShiftTdo env d1 bits = drShiftTdo env d2 bits := by
  intro bits
  induction bits with
  | nil => intro d1 d2 _ _ _ _ _ _ _; rfl
  | cons b rest ih =>
    intro d1 d2 ht1 ht2 hc1 hc2 hs hl1 hl2
    rw [drShiftTdo, drShiftTdo]
    rw [pinStep_shift_dr env d1 b ht1 hc1, pinStep_shift_dr env d2 b ht2 hc2]
    simp only [hl1, hl2, hs]
    refine congrArg (List.cons _) (ih _ _ rfl rfl rfl rfl rfl ?_ ?_)
    · simpa using hl1
    · simpa using hl2

/-- C5 amended: every IR encoding other than BYPASS/IDCODE/DTMCS/DMI
selects a DR of length 1, shifts exactly as BYPASS does, and commits
nothing at UPDATE-DR; but CAPTURE-DR leaves the shifter unchanged
instead of loading 0 as BYPASS does, so the TDO stream of a DR scan is
guaranteed to match the BYPASS stream only when the shifter already
holds 0 when CAPTURE-DR is processed. -/
theorem unknown_ir_bypass_amended :
    ∀ (env : Nat → Nat) (d : jtag_vdtm),
      d.ir ≠ IR_BYPASS → d.ir ≠ IR_IDCODE → d.ir ≠ IR_DTMCS → d.ir ≠ IR_DMI →
      (dr_len d.ir = 1 ∧
       (d.tap_state = CAPTURE_DR →
          tck_posedge env d = { d with tap_state := step_tap_fsm CAPTURE_DR d.tms }) ∧
       (d.tap_state = SHIFT_DR →
          (tck_posedge env d).shifter =
            (tck_posedge env { d with ir := IR_BYPASS }).shifter) ∧
       (d.tap_state = UPDATE_DR →
          tck_posedge env d = { d with tap_state := step_tap_fsm UPDATE_DR d.tms }) ∧
       (d.tap_state = CAPTURE_DR → d.tck = false → d.shifter = 0 →
          ∀ bits, drScanTdo env d bits =
            drScanTdo env { d with ir := IR_BYPASS } bits)) := by
  intro env d h0 h1 h2 h3
  have hlen : dr_len d.ir = 1 := dr_len_unknown h1 h2 h3
  refine ⟨hlen, ?_, ?_, ?_, ?_⟩
  · intro htap
    simp [tck_posedge, htap, h0, h1, h2, h3]
  · intro htap
    have hlb : dr_len IR_BYPASS = 1 := by simp [dr_len, IR_BYPASS, IR_IDCODE, IR_DTMCS, IR_DMI]
    simp [tck_posedge, htap, hlen, hlb]
  · intro htap
    simp [tck_posedge, htap, h2, h3]
  · intro htap htck hsh bits
    rw [drScanTdo, drScanTdo]
    rw [pinStep_capture_dr_unknown env d false htap htck h0 h1 h2 h3]
    rw [pinStep_capture_dr_bypass env { d with ir := IR_BYPASS } false
      (by simpa using htap) (by simpa using htck) rfl]
    simp only [hsh]
    refine congrArg (List.cons _) ?_
    · refine drShiftTdo_bisim env bits _ _ rfl rfl rfl rfl (by simp) ?_ ?_
      · simpa using hlen
      · simp [dr_len, IR_BYPASS, IR_IDCODE, IR_DTMCS, IR_DMI]

/-- Pin sequence: TAP reset, IR scan shifting in the given five bits
LSB-first, then a DR scan of three cycles with TDI=0. -/
def irThenDrScan (b2 : Bool) : List (Bool × Bool) :=
  [(true, false), (true, false), (true, false), (true, false), (true, false),
   (false, false),
   (true, false), (true, false),
   (false, false),
   (false, false),
   (false, false),
   (false, b2),
   (false, false),
   (false, false),
   (true, false),
   (true, false),
   (false, false),
   (true, false),
   (false, false),
   (false, false),
   (false, false),
   (false, false)]

/-- C5 counterexample: after an IR scan of 0b00010 (an unsupported
encoding) the TDO stream of a DR scan differs from the stream obtained
with IR=BYPASS (0b00000), because CAPTURE-DR leaves the stale shifter
value in place instead of loading 0. -/
theorem unknown_ir_tdo_differs :
    tdoTrace (fun _ => 0) (jtag_vdtm_create 0xdeadbeef) (irThenDrScan true) ≠
    tdoTrace (fun _ => 0) (jtag_vdtm_create 0xdeadbeef) (irThenDrScan false) := by
  decide

def dU : jtag_vdtm :=
  { jtag_vdtm_create 0 with tap_state := CAPTURE_DR, ir := 0x02, shifter := 0 }

theorem unknown_ir_bypass_amended_witness :
    (dU.ir ≠ IR_BYPASS ∧ dU.tap_state = CAPTURE_DR ∧ dU.tck = false ∧ dU.shifter = 0) ∧
    drScanTdo (fun _ => 0) dU [false, true] =
      drScanTdo (fun _ => 0) { dU with ir := IR_BYPASS } [false, true] :=
  ⟨⟨by decide, rfl, rfl, rfl⟩,
    (unknown_ir_bypass_amended (fun _ => 0) dU (by decide) (by decide) (by decide)
      (by decide)).2.2.2.2 rfl rfl rfl [false, true]⟩

/-! ## IR update semantics (claim C9)

`Reachable` captures every state the C program can place a
`jtag_vdtm` instance in: freshly created, or obtained from a reachable
state through one of the public pin/callback setters. -/

inductive Reachable : jtag_vdtm → Prop
  | create (idcode : Nat) : Reachable (jtag_vdtm_create idcode)
  | tck (env : Nat → Nat) (b : Bool) {d : jtag_vdtm} :
      Reachable d → Reachable (jtag_vdtm_set_tck env d b)
  | tms (b : Bool) {d : jtag_vdtm} :
      Reachable d → Reachable (jtag_vdtm_set_tms d b)
  | tdi (b : Bool) {d : jtag_vdtm} :
      Reachable d → Reachable (jtag_vdtm_set_tdi d b)
  | wcb (b : Bool) {d : jtag_vdtm} :
      Reachable d → Reachable (jtag_vdtm_set_write_callback d b)
  | rcb (b : Bool) {d : jtag_vdtm} :
      Reachable d → Reachable (jtag_vdtm_set_read_callback d b)

/-- The TAP states from which UPDATE-IR can be reached without passing
through CAPTURE-IR again. -/
def irTail (s : TapState) : Prop :=
  s = SHIFT_IR ∨ s = EXIT1_IR ∨ s = PAUSE_IR ∨ s = EXIT2_IR ∨ s = UPDATE_IR

instance (s : TapState) : Decidable (irTail s) := by
  unfold irTail
  infer_instance

/-- The data invariant of every reachable DTM state: IR always holds a
5-bit value, and whenever the TAP sits in the tail of an IR scan the
shifter holds a 5-bit value as well. -/
def DtmInv (d : jtag_vdtm) : Prop :=
  d.ir < 32 ∧ (irTail d.tap_state → d.shifter < 32)

theorem shift_ir_step_bound {s t : Nat} (hs : s < 32) (ht : t ≤ 1) :
    ((s >>> 1) ||| (t <<< 4)) % 2^64 < 32 := by
  have h1 : s >>> 1 < 2^5 := by
    rw [Nat.shiftRight_eq_div_pow]
    omega
  have h2 : t <<< 4 < 2^5 := by
    rw [Nat.shiftLeft_eq]
    omega
  have h3 : (s >>> 1) ||| (t <<< 4) < 2^5 := Nat.bitwise_lt h1 h2
  exact lt_of_le_of_lt (Nat.mod_le _ _) h3

theorem tck_posedge_tap (env : Nat → Nat) (d : jtag_vdtm) :
    (tck_posedge env d).tap_state = step_tap_fsm d.tap_state d.tms := rfl

theorem tck_posedge_ir (env : Nat → Nat) (d : jtag_vdtm) :
    (tck_posedge env d).ir =
      (if d.tap_state = RESET then IR_IDCODE
       else if d.tap_state = UPDATE_IR then d.shifter % 2^8
       else d.ir) := by
  cases htap : d.tap_state <;>
    · simp only [tck_posedge, htap, handle_dmi_write, handle_dtmcs_write]
      split_ifs <;> first | rfl | contradiction

theorem tck_posedge_inv (env : Nat → Nat) (d : jtag_vdtm) (h : DtmInv d) :
    DtmInv (tck_posedge env d) := by
  obtain ⟨hir, hsh⟩ := h
  constructor
  · rw [tck_posedge_ir]
    split_ifs with hR hU
    · simp [IR_IDCODE]
    · have hs : d.shifter < 32 := hsh (Or.inr (Or.inr (Or.inr (Or.inr hU))))
      have e : (2:Nat)^8 = 256 := rfl
      rw [e]
      omega
    · exact hir
  · intro htail
    rw [tck_posedge_tap] at htail
    cases htap : d.tap_state with
    | CAPTURE_IR =>
      have hval : (tck_posedge env d).shifter = d.ir := by
        simp [tck_posedge, htap]
      rw [hval]
      omega
    | SHIFT_IR =>
      have hs : d.shifter < 32 := hsh (by rw [htap]; exact Or.inl rfl)
      have hval : (tck_posedge env d).shifter =
          ((d.shifter >>> 1) ||| (d.tdi.toNat <<< 4)) % 2^64 := by
        simp [tck_posedge, htap, W_IR]
      rw [hval]
      exact shift_ir_step_bound hs (by cases d.tdi <;> simp)
    | EXIT1_IR =>
      have hval : (tck_posedge env d).shifter = d.shifter := by
        simp [tck_posedge, htap]
      rw [hval]
      exact hsh (by rw [htap]; exact Or.inr (Or.inl rfl))
    | PAUSE_IR =>
      have hval : (tck_posedge env d).shifter = d.shifter := by
        simp [tck_posedge, htap]
      rw [hval]
      exact hsh (by rw [htap]; exact Or.inr (Or.inr (Or.inl rfl)))
    | EXIT2_IR =>
      have hval : (tck_posedge env d).shifter = d.shifter := by
        simp [tck_posedge, htap]
      rw [hval]
      exact hsh (by rw [htap]; exact Or.inr (Or.inr (Or.inr (Or.inl rfl))))
    | RESET =>
      rw [htap] at htail
      cases htms : d.tms <;> rw [htms] at htail <;> exact absurd htail (by decide)
    | RUN_IDLE =>
      rw [htap] at htail
      cases htms : d.tms <;> rw [htms] at htail <;> exact absurd htail (by decide)
    | SELECT_DR =>
      rw [htap] at htail
      cases htms : d.tms <;> rw [htms] at htail <;> exact absurd htail (by decide)
    | CAPTURE_DR =>
      rw [htap] at htail
      cases htms : d.tms <;> rw [htms] at htail <;> exact absurd htail (by decide)
    | SHIFT_DR =>
      rw [htap] at htail
      cases htms : d.tms <;> rw [htms] at htail <;> exact absurd htail (by decide)
    | EXIT1_DR =>
      rw [htap] at htail
      cases htms : d.tms <;> rw [htms] at htail <;> exact absurd htail (by decide)
    | PAUSE_DR =>
      rw [htap] at htail
      cases htms : d.tms <;> rw [htms] at htail <;> exact absurd htail (by decide)
    | EXIT2_DR =>
      rw [htap] at htail
      cases htms : d.tms <;> rw [htms] at htail <;> exact absurd htail (by decide)
    | UPDATE_DR =>
      rw [htap] at htail
      cases htms : d.tms <;> rw [htms] at htail <;> exact absurd htail (by decide)
    | SELECT_IR =>
      rw [htap] at htail
      cases htms : d.tms <;> rw [htms] at htail <;> exact absurd htail (by decide)
    | UPDATE_IR =>
      rw [htap] at htail
      cases htms : d.tms <;> rw [htms] at htail <;> exact absurd htail (by decide)

theorem reachable_inv : ∀ d : jtag_vdtm, Reachable d → DtmInv d := by
  intro d h
  induction h with
  | create idcode =>
    exact ⟨(by decide : (0:Nat) < 32),
      fun ht => absurd (show irTail RESET from ht) (by decide)⟩
  | tck env0 b0 hrd ih =>
    simp only [jtag_vdtm_set_tck]
    split
    · rename_i d0 hcond
      have hp := tck_posedge_inv env0 d0 ih
      exact ⟨hp.1, hp.2⟩
    · split
      · exact ⟨ih.1, ih.2⟩
      · exact ⟨ih.1, ih.2⟩
  | tms b0 hrd ih => exact ⟨ih.1, ih.2⟩
  | tdi b0 hrd ih => exact ⟨ih.1, ih.2⟩
  | wcb b0 hrd ih => exact ⟨ih.1, ih.2⟩
  | rcb b0 hrd ih => exact ⟨ih.1, ih.2⟩

/-- Value of a bit list, first bit in bit 0 (LSB-first). -/
def bitsVal : List Bool → Nat
  | [] => 0
  | b :: r => b.toNat + 2 * bitsVal r

/-- One SHIFT-IR update of the shift register. -/
def shiftStep (s : Nat) (b : Bool) : Nat :=
  ((s >>> 1) ||| (b.toNat <<< (W_IR - 1))) % 2^64

def shiftFold : Nat → List Bool → Nat
  | s, [] => s
  | s, b :: r => shiftFold (shiftStep s b) r

/-- TMS/TDI pin pairs realizing the SHIFT-IR phase of a scan: every bit
is clocked with TMS low except the last, which exits to EXIT1. -/
def shiftSteps : List Bool → List (Bool × Bool)
  | [] => []
  | [b] => [(true, b)]
  | b :: rest => (false, b) :: shiftSteps rest

/-- A full IR scan driven from CAPTURE-IR: capture, shift all bits
(exiting on the last), EXIT1-IR to UPDATE-IR, and the update cycle. -/
def irScan (env : Nat → Nat) (d : jtag_vdtm) (bits : List Bool) : jtag_vdtm :=
  runPins env d ((false, false) :: (shiftSteps bits ++ [(true, false), (false, false)]))

theorem runPins_append (env : Nat → Nat) :
    ∀ (l1 l2 : List (Bool × Bool)) (d : jtag_vdtm),
      runPins env d (l1 ++ l2) = runPins env (runPins env d l1) l2 := by
  intro l1
  induction l1 with
  | nil => intro l2 d; rfl
  | cons p rest ih =>
    intro l2 d
    cases p with
    | mk tms tdi => exact ih l2 (pinStep env d tms tdi)

theorem pinStep_capture_ir (env : Nat → Nat) (d : jtag_vdtm) (b : Bool)
    (htap : d.tap_state = CAPTURE_IR) (htck : d.tck = false) :
    pinStep env d false b =
      { d with tms := false, tdi := b, shifter := d.ir, tap_state := SHIFT_IR,
               tdo := decide (d.ir &&& 1 = 1), tck := false } := by
  simp [pinStep, jtag_vdtm_set_tms, jtag_vdtm_set_tdi, jtag_vdtm_set_tck, htck,
    tck_posedge, htap, step_tap_fsm, get_next_tdo]

theorem pinStep_shift_ir_cont (env : Nat → Nat) (d : jtag_vdtm) (b : Bool)
    (htap : d.tap_state = SHIFT_IR) (htck : d.tck = false) :
    pinStep env d false b =
      { d with tms := false, tdi := b, shifter := shiftStep d.shifter b,
               tap_state := SHIFT_IR,
               tdo := decide (shiftStep d.shifter b &&& 1 = 1), tck := false } := by
  simp [pinStep, jtag_vdtm_set_tms, jtag_vdtm_set_tdi, jtag_vdtm_set_tck, htck,
    tck_posedge, htap, step_tap_fsm, get_next_tdo, shiftStep]

theorem pinStep_shift_ir_last (env : Nat → Nat) (d : jtag_vdtm) (b : Bool)
    (htap : d.tap_state = SHIFT_IR) (htck : d.tck = false) :
    pinStep env d true b =
      { d with tms := true, tdi := b, shifter := shiftStep d.shifter b,
               tap_state := EXIT1_IR, tdo := false, tck := false } := by
  simp [pinStep, jtag_vdtm_set_tms, jtag_vdtm_set_tdi, jtag_vdtm_set_tck, htck,
    tck_posedge, htap, step_tap_fsm, get_next_tdo, shiftStep]

theorem pinStep_exit1_ir (env : Nat → Nat) (d : jtag_vdtm) (b : Bool)
    (htap : d.tap_state = EXIT1_IR) (htck : d.tck = false) :
    pinStep env d true b =
      { d with tms := true, tdi := b, tap_state := UPDATE_IR,
               tdo := false, tck := false } := by
  simp [pinStep, jtag_vdtm_set_tms, jtag_vdtm_set_tdi, jtag_vdtm_set_tck, htck,
    tck_posedge, htap, step_tap_fsm, get_next_tdo]

theorem pinStep_update_ir (env : Nat → Nat) (d : jtag_vdtm) (b : Bool)
    (htap : d.tap_state = UPDATE_IR) (htck : d.tck = false) :
    pinStep env d false b =
      { d with tms := false, tdi := b, ir := d.shifter % 2^8,
               tap_state := RUN_IDLE, tdo := false, tck := false } := by
  simp [pinStep, jtag_vdtm_set_tms, jtag_vdtm_set_tdi, jtag_vdtm_set_tck, htck,
    tck_posedge, htap, step_tap_fsm, get_next_tdo]

theorem runPins_shiftSteps (env : Nat → Nat) :
    ∀ (r : List Bool) (b : Bool) (d : jtag_vdtm),
      d.tap_state = SHIFT_IR → d.tck = false →
      ((runPins env d (shiftSteps (b :: r))).tap_state = EXIT1_IR ∧
       (runPins env d (shiftSteps (b :: r))).tck = false ∧
       (runPins env d (shiftSteps (b :: r))).shifter = shiftFold d.shifter (b :: r)) := by
  intro r
  induction r with
  | nil =>
    intro b d htap htck
    show ((pinStep env d true b).tap_state = EXIT1_IR ∧
      (pinStep env d true b).tck = false ∧
      (pinStep env d true b).shifter = shiftFold d.shifter [b])
    rw [pinStep_shift_ir_last env d b htap htck]
    exact ⟨rfl, rfl, rfl⟩
  | cons c r ih =>
    intro b d htap htck
    show ((runPins env (pinStep env d false b) (shiftSteps (c :: r))).tap_state = EXIT1_IR ∧
      (runPins env (pinStep env d false b) (shiftSteps (c :: r))).tck = false ∧
      (runPins env (pinStep env d false b) (shiftSteps (c :: r))).shifter =
        shiftFold d.shifter (b :: c :: r))
    rw [pinStep_shift_ir_cont env d b htap htck]
    exact ih c _ rfl rfl

theorem or_sixteen : ∀ y, y < 16 → y ||| 16 = y + 16 := by decide

theorem shiftStep_small {s : Nat} (hs : s < 32) (b : Bool) :
    shiftStep s b = s / 2 + 16 * b.toNat := by
  have h1 : s >>> 1 = s / 2 := by
    rw [Nat.shiftRight_eq_div_pow, pow_one]
  cases b with
  | false =>
    simp only [shiftStep, W_IR, Bool.toNat_false, Nat.zero_shiftLeft, Nat.or_zero, h1]
    rw [Nat.mod_eq_of_lt (by omega)]
    omega
  | true =>
    have h2 : (Bool.toNat true) <<< (W_IR - 1) = 16 := rfl
    simp only [shiftStep, h1, h2]
    rw [or_sixteen (s / 2) (by omega), Nat.mod_eq_of_lt (by omega)]
    simp

theorem shiftFold_eq :
    ∀ (l : List Bool) (s : Nat), s < 32 →
      shiftFold s l = (s + 32 * bitsVal l) / 2 ^ l.length := by
  intro l
  induction l with
  | nil =>
    intro s hs
    simp [shiftFold, bitsVal]
  | cons b r ih =>
    intro s hs
    have hstep : shiftFold s (b :: r) = shiftFold (s / 2 + 16 * b.toNat) r := by
      rw [show shiftFold s (b :: r) = shiftFold (shiftStep s b) r from rfl,
        shiftStep_small hs b]
    have hb : b.toNat ≤ 1 := by cases b <;> simp
    have hs2 : s / 2 + 16 * b.toNat < 32 := by omega
    rw [hstep, ih _ hs2]
    rw [show bitsVal (b :: r) = b.toNat + 2 * bitsVal r from rfl, List.length_cons]
    have e1 : s / 2 + 16 * b.toNat + 32 * bitsVal r =
        s / 2 + (16 * b.toNat + 32 * bitsVal r) := by ring
    have e2 : s + 32 * (b.toNat + 2 * bitsVal r) =
        s + 2 * (16 * b.toNat + 32 * bitsVal r) := by ring
    rw [e1, e2, pow_succ, mul_comm ((2:Nat) ^ r.length) 2, ← Nat.div_div_eq_div_mul]
    congr 1
    rw [Nat.add_mul_div_left s _ (by norm_num : (0:Nat) < 2)]

theorem bitsVal_lt : ∀ l : List Bool, bitsVal l < 2 ^ l.length := by
  intro l
  induction l with
  | nil => simp [bitsVal]
  | cons b r ih =>
    have hb : b.toNat ≤ 1 := by cases b <;> simp
    rw [show bitsVal (b :: r) = b.toNat + 2 * bitsVal r from rfl, List.length_cons, pow_succ]
    omega

theorem bitsVal_drop :
    ∀ (k : Nat) (l : List Bool), bitsVal (List.drop k l) = bitsVal l / 2 ^ k := by
  intro k
  induction k with
  | zero => intro l; simp
  | succ k ih =>
    intro l
    cases l with
    | nil => simp [bitsVal]
    | cons b r =>
      have hb : b.toNat ≤ 1 := by cases b <;> simp
      rw [List.drop_succ_cons, ih r]
      rw [show bitsVal (b :: r) = b.toNat + 2 * bitsVal r from rfl]
      rw [pow_succ, mul_comm ((2:Nat) ^ k) 2, ← Nat.div_div_eq_div_mul]
      congr 1
      rw [Nat.add_mul_div_left _ _ (by norm_num : (0:Nat) < 2)]
      rw [Nat.div_eq_of_lt (by omega : b.toNat < 2), Nat.zero_add]

theorem shiftFold_last5 (l : List Bool) (s : Nat) (hs : s < 32) (hlen : 5 ≤ l.length) :
    shiftFold s l = bitsVal (l.drop (l.length - 5)) := by
  rw [shiftFold_eq l s hs, bitsVal_drop]
  have e : (2:Nat) ^ l.length = 32 * 2 ^ (l.length - 5) := by
    rw [show (32:Nat) = 2^5 from rfl, ← pow_add]
    congr 1
    omega
  rw [e, ← Nat.div_div_eq_div_mul]
  congr 1
  rw [Nat.add_mul_div_left s _ (by norm_num : (0:Nat) < 32)]
  rw [Nat.div_eq_of_lt hs, Nat.zero_add]

theorem and_31_small : ∀ x, x < 32 → x % 2^8 = x &&& 0x1F := by decide

/-- C9: an IR scan of n ≥ 5 bits driven through CAPTURE-IR leaves IR
equal to the last 5 bits shifted in, first-shifted bit in bit 0 (for a
5-bit scan, exactly those bits); and on every reachable state, the
UPDATE-IR edge performs IR ← shifter & 0x1F — the shifter holds a
5-bit value there, so no higher bit ever reaches IR. -/
theorem ir_update_semantics :
    (∀ (env : Nat → Nat) (d : jtag_vdtm) (bits : List Bool),
       d.tap_state = CAPTURE_IR → d.tck = false → d.ir < 32 → 5 ≤ bits.length →
       (irScan env d bits).ir = bitsVal (bits.drop (bits.length - 5))) ∧
    (∀ (env : Nat → Nat) (d : jtag_vdtm),
       Reachable d → d.tap_state = UPDATE_IR →
       (tck_posedge env d).ir = d.shifter &&& 0x1F) := by
  constructor
  · intro env d bits htap htck hir hlen
    cases bits with
    | nil => simp at hlen
    | cons b r =>
      unfold irScan
      rw [show runPins env d ((false, false) ::
            (shiftSteps (b :: r) ++ [(true, false), (false, false)])) =
          runPins env (pinStep env d false false)
            (shiftSteps (b :: r) ++ [(true, false), (false, false)]) from rfl]
      rw [pinStep_capture_ir env d false htap htck]
      rw [runPins_append]
      obtain ⟨he1, he2, he3⟩ := runPins_shiftSteps env r b
        { d with tms := false, tdi := false, shifter := d.ir, tap_state := SHIFT_IR,
                 tdo := decide (d.ir &&& 1 = 1), tck := false } rfl rfl
      rw [show (runPins env _
            [((true : Bool), (false : Bool)), ((false : Bool), (false : Bool))]) =
          pinStep env (pinStep env (runPins env
            { d with tms := false, tdi := false, shifter := d.ir, tap_state := SHIFT_IR,
                     tdo := decide (d.ir &&& 1 = 1), tck := false }
            (shiftSteps (b :: r))) true false) false false from rfl]
      rw [pinStep_exit1_ir env _ false he1 he2]
      rw [pinStep_update_ir env _ false rfl rfl]
      have hshift : (runPins env
          { d with tms := false, tdi := false, shifter := d.ir, tap_state := SHIFT_IR,
                   tdo := decide (d.ir &&& 1 = 1), tck := false }
          (shiftSteps (b :: r))).shifter = shiftFold d.ir (b :: r) := he3
      show (runPins env
          { d with tms := false, tdi := false, shifter := d.ir, tap_state := SHIFT_IR,
                   tdo := decide (d.ir &&& 1 = 1), tck := false }
          (shiftSteps (b :: r))).shifter % 2^8 = bitsVal ((b :: r).drop ((b :: r).length - 5))
      rw [hshift, shiftFold_last5 (b :: r) d.ir hir hlen]
      have hlt : bitsVal ((b :: r).drop ((b :: r).length - 5)) < 32 := by
        have hlen5 : ((b :: r).drop ((b :: r).length - 5)).length = 5 := by
          rw [List.length_drop]
          omega
        have := bitsVal_lt ((b :: r).drop ((b :: r).length - 5))
        rw [hlen5] at this
        exact this
      rw [Nat.mod_eq_of_lt (by omega)]
  · intro env d hr htap
    have hs : d.shifter < 32 :=
      (reachable_inv d hr).2 (by rw [htap]; exact Or.inr (Or.inr (Or.inr (Or.inr rfl))))
    rw [tck_posedge_ir, if_neg (by simp [htap]), if_pos htap]
    exact and_31_small d.shifter hs

theorem reachable_pinStep (env : Nat → Nat) (tms tdi : Bool) {d : jtag_vdtm}
    (h : Reachable d) : Reachable (pinStep env d tms tdi) :=
  Reachable.tck env false (Reachable.tck env true
    (Reachable.tdi tdi (Reachable.tms tms h)))

theorem reachable_runPins (env : Nat → Nat) :
    ∀ (l : List (Bool × Bool)) {d : jtag_vdtm},
      Reachable d → Reachable (runPins env d l) := by
  intro l
  induction l with
  | nil => intro d h; exact h
  | cons p rest ih =>
    intro d h
    cases p with
    | mk tms tdi => exact ih (reachable_pinStep env tms tdi h)

def env0 : Nat → Nat := fun _ => 0

def dA : jtag_vdtm := { jtag_vdtm_create 0 with tap_state := CAPTURE_IR }

/-- Pin path from reset to UPDATE-IR: RUN-IDLE, SELECT-DR, SELECT-IR,
CAPTURE-IR, EXIT1-IR, UPDATE-IR. -/
def pathToUpdateIr : List (Bool × Bool) :=
  [(false, false), (true, false), (true, false), (false, false),
   (true, false), (true, false)]

def dReach : jtag_vdtm := runPins env0 (jtag_vdtm_create 0) pathToUpdateIr

theorem ir_update_semantics_witness :
    (irScan env0 dA [true, false, false, false, true]).ir =
      bitsVal ([true, false, false, false, true].drop
        ([true, false, false, false, true].length - 5)) ∧
    (tck_posedge env0 dReach).ir = dReach.shifter &&& 0x1F :=
  ⟨ir_update_semantics.1 env0 dA [true, false, false, false, true]
      rfl rfl (by decide) (by decide),
   ir_update_semantics.2 env0 dReach
     (reachable_runPins env0 pathToUpdateIr (Reachable.create 0)) (by decide)⟩
